import Mathlib

/-!
Shallow embedding of the hair-pulling detector core
(src/hair_pulling_detector.py, src/audio_manager.py).

Modelling conventions:
* Wall-clock times, durations, pixel coordinates and file sizes are
  rationals (Python floats are modelled exactly by the rational literals
  appearing in the source, e.g. 0.1 becomes 1/10).
* A landmark is an (x, y, z) triple in normalized coordinates, as produced
  by the external landmark oracle.
* The numpy 3D Euclidean norm comparison `np.linalg.norm(p - q) < r` is
  modelled by `distLt p q r`, which compares the squared distance with
  r^2 together with 0 <= r.  For every rational r this Boolean equals the
  comparison on real square roots, because the norm is nonnegative.
* Python `int(x)` truncates toward zero; `pyInt` mirrors that exactly.
* The filesystem view of the TTS cache directory is a list of records
  (path, size in MB, mtime); logging calls become `CacheEvent` values.
* os.remove attempts are driven by an oracle `env : Nat -> RemoveOutcome`
  (respectively `del : String -> Bool` at the eviction level) describing
  what the operating system does on each attempt.
-/

/-- A single landmark in normalized frame coordinates. -/
structure Landmark where
  x : ℚ
  y : ℚ
  z : ℚ
deriving DecidableEq

/-- The detector configuration fields read by the core
(config.detection in the source). -/
structure DetConfig where
  full_head_detection : Bool
  max_head_distance : ℚ
  required_duration : ℚ
  trigger_cooldown : ℚ

/-- Python int(): truncation toward zero. -/
def pyInt (q : ℚ) : ℤ :=
  if 0 ≤ q then ⌊q⌋ else ⌈q⌉

/-- Pixel-space scaling of a landmark: (x*w, y*h, z*w), exactly as in
_hand_near_head (z is scaled by the frame width). -/
def scaleLm (w h : ℚ) (lm : Landmark) : ℚ × ℚ × ℚ :=
  (lm.x * w, lm.y * h, lm.z * w)

/-- Squared 3D Euclidean distance. -/
def distSq (p q : ℚ × ℚ × ℚ) : ℚ :=
  (p.1 - q.1) ^ 2 + (p.2.1 - q.2.1) ^ 2 + (p.2.2 - q.2.2) ^ 2

/-- Boolean model of `np.linalg.norm(p - q) < r`: equivalent to comparing
the nonnegative real norm against r. -/
def distLt (p q : ℚ × ℚ × ℚ) (r : ℚ) : Bool :=
  decide (0 ≤ r ∧ distSq p q < r ^ 2)

/-- Eye level in pixels:
`int((min(right_eye.y, left_eye.y) - 0.05) * h)` with the fixed landmark
indices RIGHT_EYE = 159 and LEFT_EYE = 386 of GestureDetector. -/
def eye_level_pixels (face : List Landmark) (h : ℚ) : ℤ :=
  let right_eye_y := (face.getD 159 ⟨0, 0, 0⟩).y
  let left_eye_y := (face.getD 386 ⟨0, 0, 0⟩).y
  pyInt ((min right_eye_y left_eye_y - 1/20) * h)

/-- face_points_above_eye_3d: every second face landmark (even index)
whose pixel y is at or above (i.e. <=) the eye level. -/
def facePtsEvenAboveEye (face : List Landmark) (w h : ℚ) (eyePx : ℤ) :
    List (ℚ × ℚ × ℚ) :=
  (List.range face.length).filterMap fun i =>
    let lm := face.getD i ⟨0, 0, 0⟩
    if i % 2 = 0 ∧ lm.y * h ≤ (eyePx : ℚ) then some (scaleLm w h lm) else none

/-- face_points_3d of the full-head contact branch: every second face
landmark (even index), with no height filter. -/
def facePtsEven (face : List Landmark) (w h : ℚ) : List (ℚ × ℚ × ℚ) :=
  (List.range face.length).filterMap fun i =>
    if i % 2 = 0 then some (scaleLm w h (face.getD i ⟨0, 0, 0⟩)) else none

/-- above_eye_landmarks of one hand: the pixel-scaled hand landmarks whose
pixel y is at or above the eye level. -/
def aboveEyeLandmarks (hand : List Landmark) (w h : ℚ) (eyePx : ℤ) :
    List (ℚ × ℚ × ℚ) :=
  hand.filterMap fun lm =>
    if lm.y * h ≤ (eyePx : ℚ) then some (scaleLm w h lm) else none

/-- The full-head contact check for one hand: any hand landmark within the
fixed contact radius 20.0 of any (even-index) face point. -/
def handContact (hand : List Landmark) (facePts : List (ℚ × ℚ × ℚ))
    (w h : ℚ) : Bool :=
  hand.any fun lm => facePts.any fun fp => distLt (scaleLm w h lm) fp 20

/-- The above-eye check for one hand: it runs only when at least 3 hand
landmarks are above eye level, and then looks for any pair within the
configurable max_head_distance. -/
def handAboveEye (maxd : ℚ) (aboveLms facePtsAbove : List (ℚ × ℚ × ℚ)) :
    Bool :=
  decide (3 ≤ aboveLms.length) &&
    aboveLms.any fun hp => facePtsAbove.any fun fp => distLt hp fp maxd

/-- _hand_near_head: the per-frame proximity decision.  `hands` is the
list of detected hands (each a landmark list), `faces` the list of
detected faces (the source uses faces[0]); w, h are the frame sizes. -/
def hand_near_head (cfg : DetConfig) (hands : List (List Landmark))
    (faces : List (List Landmark)) (w h : ℚ) : Bool :=
  match hands, faces with
  | [], _ => false
  | _, [] => false
  | hs, face :: _ =>
    let eyePx := eye_level_pixels face h
    let facePtsAbove := facePtsEvenAboveEye face w h eyePx
    hs.any fun hand =>
      let aboveLms := aboveEyeLandmarks hand w h eyePx
      if cfg.full_head_detection then
        handContact hand (facePtsEven face w h) w h ||
          handAboveEye cfg.max_head_distance aboveLms facePtsAbove
      else
        handAboveEye cfg.max_head_distance aboveLms facePtsAbove

/-- The three detector states. -/
inductive DState
  | idle
  | detecting
  | pulling
deriving DecidableEq

/-- The mutable per-detector fields touched by _check_for_pulling and
_trigger_alert. -/
structure DetectorState where
  state : DState
  hand_near_head_time : ℚ
  hand_near_head_duration : ℚ
  last_triggered : ℚ
  last_hand_near_head : ℚ
deriving DecidableEq

/-- The field values established by __init__. -/
def initState : DetectorState :=
  ⟨DState.idle, 0, 0, 0, 0⟩

/-- _check_for_pulling, with the per-frame proximity result `near` and the
current wall-clock time `t`. -/
def check_for_pulling (cfg : DetConfig) (s : DetectorState) (near : Bool)
    (t : ℚ) : DetectorState :=
  if near then
    let s₁ :=
      if s.state = DState.idle then
        { s with state := DState.detecting, hand_near_head_time := t }
      else s
    let s₂ :=
      { s₁ with
        hand_near_head_duration := t - s₁.hand_near_head_time
        last_hand_near_head := t }
    if s₂.hand_near_head_duration ≥ cfg.required_duration ∧
        s₂.state = DState.detecting then
      { s₂ with state := DState.pulling }
    else s₂
  else
    if t - s.last_hand_near_head > 1/10 then
      { s with state := DState.idle, hand_near_head_duration := 0 }
    else s

/-- _trigger_alert at time `t`; the Boolean records whether the alert
(audio playback and stats update) fired. -/
def trigger_alert (cfg : DetConfig) (s : DetectorState) (t : ℚ) :
    DetectorState × Bool :=
  if s.state = DState.pulling then
    if t - s.last_triggered > cfg.trigger_cooldown ∧
        s.hand_near_head_duration ≥ cfg.required_duration then
      ({ s with last_triggered := t, state := DState.idle }, true)
    else (s, false)
  else (s, false)

/-- One iteration of the detection loop on one frame: _check_for_pulling
followed by _trigger_alert.  A frame is a (near, time) pair. -/
def stepFrame (cfg : DetConfig) (s : DetectorState) (fr : Bool × ℚ) :
    DetectorState × Bool :=
  trigger_alert cfg (check_for_pulling cfg s fr.1 fr.2) fr.2

/-- Run the detection loop over a frame sequence. -/
def runDetector (cfg : DetConfig) (s : DetectorState) :
    List (Bool × ℚ) → DetectorState
  | [] => s
  | fr :: rest => runDetector cfg (stepFrame cfg s fr).1 rest

/-- The times at which the trigger callback fires along a frame
sequence. -/
def firingTimes (cfg : DetConfig) (s : DetectorState) :
    List (Bool × ℚ) → List ℚ
  | [] => []
  | fr :: rest =>
    let r := stepFrame cfg s fr
    (if r.2 then [fr.2] else []) ++ firingTimes cfg r.1 rest

/-- Invariant used for the duration-gate argument: the machine is not in
PULLING and, while DETECTING, the recorded start time is at least `a`. -/
def DurInv (a : ℚ) (s : DetectorState) : Prop :=
  s.state ≠ DState.pulling ∧
    (s.state = DState.detecting → a ≤ s.hand_near_head_time)

/-- One file of the TTS cache directory (size in MB, as used by
_get_cache_size). -/
structure CacheFile where
  path : String
  size : ℚ
  mtime : ℚ
deriving DecidableEq

/-- The logging calls emitted while enforcing the cache limit. -/
inductive CacheEvent
  | evicted (path : String)
  | evictFailed (path : String)
deriving DecidableEq

/-- _get_cache_size: total size of the cache directory in MB. -/
def totalSize (fs : List CacheFile) : ℚ :=
  (fs.map (fun f => f.size)).sum

/-- Stable insertion by modification time (oldest first). -/
def insertByMtime (f : CacheFile) : List CacheFile → List CacheFile
  | [] => [f]
  | g :: gs =>
    if g.mtime ≤ f.mtime then g :: insertByMtime f gs else f :: g :: gs

/-- `files.sort(key=lambda x: x[1])`: a stable sort of the directory
listing by modification time, oldest first. -/
def sortByMtime : List CacheFile → List CacheFile
  | [] => []
  | f :: fs => insertByMtime f (sortByMtime fs)

/-- The eviction loop of _enforce_cache_limit over the mtime-sorted
candidate list.  `cur` is the running size counter; `del p` tells whether
_delete_temp_file_with_retry succeeds on path p.  A failed deletion is
logged and the file stays on disk; its size is not subtracted. -/
def evictLoop (del : String → Bool) (limit : ℚ) (cur : ℚ) :
    List CacheFile → List CacheFile × List CacheEvent
  | [] => ([], [])
  | f :: fs =>
    if cur ≤ limit then (f :: fs, [])
    else if del f.path then
      let r := evictLoop del limit (cur - f.size) fs
      (r.1, CacheEvent.evicted f.path :: r.2)
    else
      let r := evictLoop del limit cur fs
      (f :: r.1, CacheEvent.evictFailed f.path :: r.2)

/-- _enforce_cache_limit: when the directory size exceeds the limit,
delete oldest files (by mtime) until the running size is under the
limit. -/
def enforce_cache_limit (del : String → Bool) (limit : ℚ)
    (fs : List CacheFile) : List CacheFile × List CacheEvent :=
  if totalSize fs ≤ limit then (fs, [])
  else evictLoop del limit (totalSize fs) (sortByMtime fs)

/-- _get_cached_audio_path: the content address of a message,
`cache_folder/tts_<hash(message)>.mp3`.  The hash (MD5 in the source) is
an abstract parameter. -/
def get_cached_audio_path (hashFn : String → String) (cacheFolder : String)
    (message : String) : String :=
  cacheFolder ++ "/tts_" ++ hashFn message ++ ".mp3"

/-- The cache-relevant effect of _play_tts_message: if no file exists at
the content address, synthesize one (a new file of the given size and
mtime `now`) and then enforce the cache limit; otherwise reuse the file.
Returns (directory, synthesis-performed, log). -/
def play_tts_message (hashFn : String → String) (del : String → Bool)
    (limit : ℚ) (cacheFolder : String) (fs : List CacheFile)
    (message : String) (now size : ℚ) :
    List CacheFile × Bool × List CacheEvent :=
  let audio_file := get_cached_audio_path hashFn cacheFolder message
  if fs.any fun f => f.path = audio_file then (fs, false, [])
  else
    let r := enforce_cache_limit del limit (fs ++ [⟨audio_file, size, now⟩])
    (r.1, true, r.2)

/-- Outcome of one iteration of the deletion-retry loop in
_delete_temp_file_with_retry: the os.path.exists check fails (file
already gone), os.remove succeeds, os.remove raises OSError with
winerror 32 (file in use), or os.remove raises any other OSError. -/
inductive RemoveOutcome
  | notFound
  | removed
  | busy
  | failed
deriving DecidableEq

/-- The retry loop of _delete_temp_file_with_retry.  `env i` is what the
operating system does on the i-th attempt (counted from `start`).
Returns (success, attempts used, total time slept). -/
def deleteRetryAux (env : ℕ → RemoveOutcome) (delay : ℚ) :
    ℕ → ℕ → Bool × ℕ × ℚ
  | 0, _ => (false, 0, 0)
  | r + 1, start =>
    match env start with
    | RemoveOutcome.notFound => (true, 1, 0)
    | RemoveOutcome.removed => (true, 1, 0)
    | RemoveOutcome.busy =>
      let o := deleteRetryAux env delay r (start + 1)
      (o.1, o.2.1 + 1, o.2.2 + delay)
    | RemoveOutcome.failed => (false, 1, 0)

/-- _delete_temp_file_with_retry(temp_file, retries, delay): every OSError
is caught inside the loop, so the function always returns a Boolean to
the caller (it never re-raises). -/
def delete_temp_file_with_retry (env : ℕ → RemoveOutcome) (retries : ℕ)
    (delay : ℚ) : Bool × ℕ × ℚ :=
  deleteRetryAux env delay retries 0

/-- Detector configuration used by the concrete scenarios:
full_head_detection false, max_head_distance 50, required_duration 1,
trigger_cooldown 3. -/
def cfg0 : DetConfig :=
  ⟨false, 50, 1, 3⟩

/-- Frame sequence producing two triggers, at times 11 and 21. -/
def frames0 : List (Bool × ℚ) :=
  [(true, 10), (true, 11), (true, 20), (true, 21)]

/-- Frame sequence in which `near` holds only inside the window
[0, 1/2], shorter than required_duration 1. -/
def frames2 : List (Bool × ℚ) :=
  [(true, 0), (true, 1/4), (true, 1/2)]

/-- Grace-window expiry run: `near` at t = 10, then `near` false at
t = 10.2, which exceeds the 0.1 s grace window and returns the machine
to IDLE. -/
def framesC7a : List (Bool × ℚ) :=
  [(true, 10), (false, 51/5)]

/-- Post-trigger run: `near` at t = 10 and t = 11 reaches PULLING and
fires the trigger, returning the machine to IDLE. -/
def framesC7b : List (Bool × ℚ) :=
  [(true, 10), (true, 11)]

/-- A face landmark list for the concrete proximity scenario: the
forehead landmark (index 10) at (0.5, 0.12, 0), both eye landmarks
(indices 159 and 386) at (0.5, 0.3, 0), every other landmark well below
eye level at (0.5, 0.9, 0). -/
def faceC3 : List Landmark :=
  (List.range 387).map fun i =>
    if i = 10 then ⟨1/2, 3/25, 0⟩
    else if i = 159 ∨ i = 386 then ⟨1/2, 3/10, 0⟩
    else ⟨1/2, 9/10, 0⟩

/-- Ten 2 MB cache files with increasing modification times. -/
def tenFiles : List CacheFile :=
  (List.range 10).map fun i => ⟨"m" ++ toString i, 2, (i : ℚ)⟩

/-- Removal oracle that reports the file busy twice, then succeeds. -/
def envC9 : ℕ → RemoveOutcome :=
  fun i => if i < 2 then RemoveOutcome.busy else RemoveOutcome.removed

theorem totalSize_nil : totalSize [] = 0 := rfl

theorem totalSize_cons (f : CacheFile) (fs : List CacheFile) :
    totalSize (f :: fs) = f.size + totalSize fs := by
  simp [totalSize]

theorem totalSize_append (l₁ l₂ : List CacheFile) :
    totalSize (l₁ ++ l₂) = totalSize l₁ + totalSize l₂ := by
  simp [totalSize]

theorem totalSize_insertByMtime (f : CacheFile) (l : List CacheFile) :
    totalSize (insertByMtime f l) = f.size + totalSize l := by
  induction l with
  | nil => simp [insertByMtime, totalSize]
  | cons g gs ih =>
    unfold insertByMtime
    split_ifs with h
    · rw [totalSize_cons, ih, totalSize_cons]
      ring
    · rw [totalSize_cons, totalSize_cons]

theorem totalSize_sortByMtime (l : List CacheFile) :
    totalSize (sortByMtime l) = totalSize l := by
  induction l with
  | nil => rfl
  | cons f fs ih =>
    show totalSize (insertByMtime f (sortByMtime fs)) = totalSize (f :: fs)
    rw [totalSize_insertByMtime, ih, totalSize_cons]

theorem insertByMtime_perm (f : CacheFile) (l : List CacheFile) :
    List.Perm (insertByMtime f l) (f :: l) := by
  induction l with
  | nil => exact List.Perm.refl _
  | cons g gs ih =>
    unfold insertByMtime
    split_ifs with h
    · exact (ih.cons g).trans (List.Perm.swap f g gs)
    · exact List.Perm.refl _

theorem sortByMtime_perm (l : List CacheFile) :
    List.Perm (sortByMtime l) l := by
  induction l with
  | nil => exact List.Perm.refl _
  | cons f fs ih =>
    show List.Perm (insertByMtime f (sortByMtime fs)) (f :: fs)
    exact (insertByMtime_perm f (sortByMtime fs)).trans (ih.cons f)

theorem insertByMtime_pairwise (f : CacheFile) (l : List CacheFile)
    (h : List.Pairwise (fun a b : CacheFile => a.mtime ≤ b.mtime) l) :
    List.Pairwise (fun a b : CacheFile => a.mtime ≤ b.mtime)
      (insertByMtime f l) := by
  induction l with
  | nil => simp [insertByMtime]
  | cons g gs ih =>
    rw [List.pairwise_cons] at h
    unfold insertByMtime
    split_ifs with hle
    · rw [List.pairwise_cons]
      refine ⟨fun x hx => ?_, ih h.2⟩
      have hx' : x ∈ f :: gs := (insertByMtime_perm f gs).mem_iff.mp hx
      rcases List.mem_cons.mp hx' with rfl | hxg
      · exact hle
      · exact h.1 x hxg
    · rw [List.pairwise_cons]
      refine ⟨fun x hx => ?_, List.pairwise_cons.mpr h⟩
      rcases List.mem_cons.mp hx with rfl | hxg
      · exact le_of_lt (lt_of_not_ge hle)
      · exact le_trans (le_of_lt (lt_of_not_ge hle)) (h.1 x hxg)

theorem sortByMtime_pairwise (l : List CacheFile) :
    List.Pairwise (fun a b : CacheFile => a.mtime ≤ b.mtime)
      (sortByMtime l) := by
  induction l with
  | nil => exact List.Pairwise.nil
  | cons f fs ih =>
    exact insertByMtime_pairwise f (sortByMtime fs) ih

theorem insertByMtime_append_newest (f n : CacheFile) (l : List CacheFile)
    (h : f.mtime < n.mtime) :
    insertByMtime f (l ++ [n]) = insertByMtime f l ++ [n] := by
  induction l with
  | nil =>
    simp only [List.nil_append]
    unfold insertByMtime
    rw [if_neg (by intro hc; linarith)]
    rfl
  | cons g gs ih =>
    simp only [List.cons_append]
    unfold insertByMtime
    split_ifs with hg
    · rw [ih]
      rfl
    · rfl

theorem sortByMtime_append_newest (l : List CacheFile) (n : CacheFile)
    (h : ∀ f ∈ l, f.mtime < n.mtime) :
    sortByMtime (l ++ [n]) = sortByMtime l ++ [n] := by
  induction l with
  | nil => rfl
  | cons f fs ih =>
    simp only [List.cons_append]
    show insertByMtime f (sortByMtime (fs ++ [n])) =
      insertByMtime f (sortByMtime fs) ++ [n]
    rw [ih fun g hg => h g (List.mem_cons_of_mem f hg)]
    exact insertByMtime_append_newest f n (sortByMtime fs)
      (h f (List.mem_cons_self f fs))

theorem evictLoop_keeps_last (limit : ℚ) (n : CacheFile) :
    ∀ (l : List CacheFile) (cur : ℚ), cur - totalSize l ≤ limit →
      n ∈ (evictLoop (fun _ => true) limit cur (l ++ [n])).1 := by
  intro l
  induction l with
  | nil =>
    intro cur h
    rw [totalSize_nil, sub_zero] at h
    simp only [List.nil_append, evictLoop]
    rw [if_pos h]
    exact List.mem_cons_self n []
  | cons f fs ih =>
    intro cur h
    simp only [List.cons_append, evictLoop]
    split_ifs with hcur
    · simp
    · refine ih (cur - f.size) ?_
      rw [totalSize_cons] at h
      linarith

theorem evictLoop_bounded (del : String → Bool) (limit : ℚ)
    (h0 : 0 ≤ limit) :
    ∀ (l : List CacheFile) (cur : ℚ), cur = totalSize l →
      totalSize (evictLoop del limit cur l).1 ≤ limit ∨
        ∃ p, CacheEvent.evictFailed p ∈ (evictLoop del limit cur l).2 := by
  intro l
  induction l with
  | nil =>
    intro cur _
    left
    simpa [evictLoop] using h0
  | cons f fs ih =>
    intro cur h
    simp only [evictLoop]
    split_ifs with hcur hdel
    · left
      dsimp only
      rw [← h]
      exact hcur
    · rcases ih (cur - f.size) (by rw [h, totalSize_cons]; ring) with hle | ⟨p, hp⟩
      · left
        exact hle
      · right
        exact ⟨p, List.mem_cons_of_mem _ hp⟩
    · right
      exact ⟨f.path, List.mem_cons_self _ _⟩

theorem enforce_cache_limit_bounded (del : String → Bool) (limit : ℚ)
    (h0 : 0 ≤ limit) (fs : List CacheFile) :
    totalSize (enforce_cache_limit del limit fs).1 ≤ limit ∨
      ∃ p, CacheEvent.evictFailed p ∈ (enforce_cache_limit del limit fs).2 := by
  unfold enforce_cache_limit
  split_ifs with h
  · left
    exact h
  · exact evictLoop_bounded del limit h0 (sortByMtime fs) (totalSize fs)
      (totalSize_sortByMtime fs).symm

theorem evictLoop_allTrue_drop (limit : ℚ) (h0 : 0 ≤ limit) :
    ∀ (l : List CacheFile) (cur : ℚ), cur = totalSize l →
      ∃ k, evictLoop (fun _ => true) limit cur l =
          (l.drop k, (l.take k).map fun f => CacheEvent.evicted f.path) ∧
        totalSize (l.drop k) ≤ limit ∧
        ∀ j, j < k → limit < totalSize (l.drop j) := by
  intro l
  induction l with
  | nil =>
    intro cur _
    refine ⟨0, by simp [evictLoop], by simpa [totalSize] using h0, ?_⟩
    intro j hj
    omega
  | cons f fs ih =>
    intro cur h
    by_cases hcur : cur ≤ limit
    · refine ⟨0, by simp [evictLoop, hcur], ?_, ?_⟩
      · rw [List.drop_zero, ← h]
        exact hcur
      · intro j hj
        omega
    · obtain ⟨k, heq, hle, hgt⟩ := ih (cur - f.size)
        (by rw [h, totalSize_cons]; ring)
      refine ⟨k + 1, ?_, ?_, ?_⟩
      · simp [evictLoop, hcur, heq]
      · simpa [List.drop_succ_cons] using hle
      · intro j hj
        cases j with
        | zero =>
          rw [List.drop_zero, ← h]
          exact lt_of_not_ge hcur
        | succ j' =>
          simpa [List.drop_succ_cons] using hgt j' (by omega)

theorem enforce_keeps_new (limit : ℚ) (fs : List CacheFile) (n : CacheFile)
    (hsz : n.size ≤ limit) (hmt : ∀ f ∈ fs, f.mtime < n.mtime) :
    n ∈ (enforce_cache_limit (fun _ => true) limit (fs ++ [n])).1 := by
  unfold enforce_cache_limit
  split_ifs with h
  · simp
  · rw [sortByMtime_append_newest fs n hmt]
    apply evictLoop_keeps_last
    rw [totalSize_append, totalSize_sortByMtime]
    have hn : totalSize [n] = n.size := by simp [totalSize]
    rw [hn]
    linarith

theorem trigger_alert_fired (cfg : DetConfig) (s : DetectorState) (t : ℚ)
    (h : (trigger_alert cfg s t).2 = true) :
    s.state = DState.pulling ∧ t - s.last_triggered > cfg.trigger_cooldown ∧
      s.hand_near_head_duration ≥ cfg.required_duration ∧
      (trigger_alert cfg s t).1.last_triggered = t := by
  unfold trigger_alert at h ⊢
  split_ifs at h ⊢ with h1 h2
  exact ⟨h1, h2.1, h2.2, rfl⟩

theorem trigger_alert_not_fired (cfg : DetConfig) (s : DetectorState) (t : ℚ)
    (h : (trigger_alert cfg s t).2 = false) :
    (trigger_alert cfg s t).1 = s := by
  unfold trigger_alert at h ⊢
  split_ifs at h ⊢ <;> rfl

theorem check_for_pulling_last_triggered (cfg : DetConfig)
    (s : DetectorState) (near : Bool) (t : ℚ) :
    (check_for_pulling cfg s near t).last_triggered = s.last_triggered := by
  unfold check_for_pulling
  dsimp only
  split_ifs <;> rfl

theorem firingTimes_cons_fired (cfg : DetConfig) (s : DetectorState)
    (fr : Bool × ℚ) (rest : List (Bool × ℚ))
    (hf : (stepFrame cfg s fr).2 = true) :
    firingTimes cfg s (fr :: rest) =
      fr.2 :: firingTimes cfg (stepFrame cfg s fr).1 rest := by
  show (if (stepFrame cfg s fr).2 then [fr.2] else []) ++ _ = _
  rw [hf]
  rfl

theorem firingTimes_cons_not_fired (cfg : DetConfig) (s : DetectorState)
    (fr : Bool × ℚ) (rest : List (Bool × ℚ))
    (hf : (stepFrame cfg s fr).2 = false) :
    firingTimes cfg s (fr :: rest) =
      firingTimes cfg (stepFrame cfg s fr).1 rest := by
  show (if (stepFrame cfg s fr).2 then [fr.2] else []) ++ _ = _
  rw [hf]
  rfl

theorem firing_gaps (cfg : DetConfig) (hcd : 0 ≤ cfg.trigger_cooldown)
    (frames : List (Bool × ℚ)) :
    ∀ s : DetectorState,
      (∀ u ∈ firingTimes cfg s frames,
        u - s.last_triggered > cfg.trigger_cooldown) ∧
      List.Pairwise (fun a b => b - a > cfg.trigger_cooldown)
        (firingTimes cfg s frames) := by
  induction frames with
  | nil => intro s; simp [firingTimes]
  | cons fr rest ih =>
    intro s
    by_cases hf : (stepFrame cfg s fr).2 = true
    · have hfire := trigger_alert_fired cfg
        (check_for_pulling cfg s fr.1 fr.2) fr.2 hf
      have hlt : (check_for_pulling cfg s fr.1 fr.2).last_triggered =
          s.last_triggered := check_for_pulling_last_triggered cfg s fr.1 fr.2
      have hlt' : (stepFrame cfg s fr).1.last_triggered = fr.2 := hfire.2.2.2
      have ihr := ih (stepFrame cfg s fr).1
      rw [firingTimes_cons_fired cfg s fr rest hf]
      simp only [List.mem_cons, List.pairwise_cons]
      refine ⟨?_, ?_, ihr.2⟩
      · rintro u (rfl | hu)
        · have h2 := hfire.2.1
          rw [hlt] at h2
          exact h2
        · have h1 := ihr.1 u hu
          rw [hlt'] at h1
          have h2 := hfire.2.1
          rw [hlt] at h2
          linarith
      · intro u hu
        have h1 := ihr.1 u hu
        rwa [hlt'] at h1
    · have hf' : (stepFrame cfg s fr).2 = false := by
        simpa using hf
      have hs' : (stepFrame cfg s fr).1 = check_for_pulling cfg s fr.1 fr.2 :=
        trigger_alert_not_fired cfg _ fr.2 hf'
      have hlt : (stepFrame cfg s fr).1.last_triggered = s.last_triggered := by
        rw [hs']; exact check_for_pulling_last_triggered cfg s fr.1 fr.2
      have ihr := ih (stepFrame cfg s fr).1
      rw [firingTimes_cons_not_fired cfg s fr rest hf']
      exact ⟨fun u hu => by have := ihr.1 u hu; rwa [hlt] at this, ihr.2⟩

/-- C1: while in PULLING, the trigger callback fires only if the time
since last_triggered strictly exceeds trigger_cooldown and the elapsed
near-head duration is at least required_duration (the two gates are
independent conjuncts of the firing condition), and consequently any two
firing times t1 < t2 of a frame sequence satisfy
t2 - t1 > trigger_cooldown: a second trigger attempted within
trigger_cooldown seconds of the first is suppressed. -/
theorem c1_cooldown_window (cfg : DetConfig)
    (hcd : 0 ≤ cfg.trigger_cooldown) (frames : List (Bool × ℚ)) :
    (∀ (s : DetectorState) (t : ℚ), (trigger_alert cfg s t).2 = true →
      s.state = DState.pulling ∧
      t - s.last_triggered > cfg.trigger_cooldown ∧
      s.hand_near_head_duration ≥ cfg.required_duration) ∧
    List.Pairwise (fun t₁ t₂ => t₂ - t₁ > cfg.trigger_cooldown)
      (firingTimes cfg initState frames) :=
  ⟨fun s t h => by
    have := trigger_alert_fired cfg s t h
    exact ⟨this.1, this.2.1, this.2.2.1⟩,
  (firing_gaps cfg hcd frames initState).2⟩

theorem trigger_alert_not_pulling (cfg : DetConfig) (s : DetectorState)
    (t : ℚ) (h : s.state ≠ DState.pulling) :
    trigger_alert cfg s t = (s, false) := by
  unfold trigger_alert
  rw [if_neg h]

theorem check_to_pulling (cfg : DetConfig) (s : DetectorState) (near : Bool)
    (t : ℚ) (h : (check_for_pulling cfg s near t).state = DState.pulling) :
    s.state = DState.pulling ∨
      (near = true ∧
        cfg.required_duration ≤
          t - (check_for_pulling cfg s near t).hand_near_head_time) := by
  unfold check_for_pulling at h ⊢
  dsimp only at h ⊢
  split_ifs at h ⊢ with h1 h2 h3 h4 h5
  · exact Or.inr ⟨h1, h3.1⟩
  · exact Or.inr ⟨h1, h4.1⟩
  · exact Or.inl h
  · exact Or.inl h

theorem durInv_step (cfg : DetConfig) (hdur : 0 < cfg.required_duration)
    (a b : ℚ) (hwin : b - a < cfg.required_duration)
    (s : DetectorState) (hs : DurInv a s) (near : Bool) (t : ℚ)
    (ht : near = true → a ≤ t ∧ t ≤ b) :
    (check_for_pulling cfg s near t).state ≠ DState.pulling ∧
      DurInv a (stepFrame cfg s (near, t)).1 := by
  have hcp : (check_for_pulling cfg s near t).state ≠ DState.pulling ∧
      DurInv a (check_for_pulling cfg s near t) := by
    obtain ⟨hs1, hs2⟩ := hs
    unfold check_for_pulling DurInv
    dsimp only
    split_ifs with h1 h2 h3 h4 h5
    · -- near, from IDLE, duration condition holds: impossible, duration is 0
      have h31 : cfg.required_duration ≤ t - t := h3.1
      exact absurd h31 (by intro hc; linarith)
    · -- near, from IDLE, stays DETECTING with start time t
      exact ⟨by simp, by simp, fun _ => (ht h1).1⟩
    · -- near, not IDLE, duration condition holds: contradicts the window
      have h41 : cfg.required_duration ≤ t - s.hand_near_head_time := h4.1
      have hdet : s.state = DState.detecting := h4.2
      have hta : a ≤ s.hand_near_head_time := hs2 hdet
      have htb : t ≤ b := (ht h1).2
      exact absurd h41 (by intro hc; linarith)
    · -- near, not IDLE, duration condition fails: state unchanged
      exact ⟨hs1, hs1, hs2⟩
    · -- not near, grace window expired: back to IDLE
      exact ⟨by simp, by simp, by simp⟩
    · -- not near, inside grace window: unchanged
      exact ⟨hs1, hs1, hs2⟩
  refine ⟨hcp.1, ?_⟩
  have hta := trigger_alert_not_pulling cfg (check_for_pulling cfg s near t)
    t hcp.1
  show DurInv a (trigger_alert cfg (check_for_pulling cfg s near t) t).1
  rw [hta]
  exact hcp.2

theorem durInv_run (cfg : DetConfig) (hdur : 0 < cfg.required_duration)
    (a b : ℚ) (hwin : b - a < cfg.required_duration)
    (frames : List (Bool × ℚ)) :
    ∀ s : DetectorState, DurInv a s →
      (∀ fr ∈ frames, fr.1 = true → a ≤ fr.2 ∧ fr.2 ≤ b) →
      DurInv a (runDetector cfg s frames) := by
  induction frames with
  | nil => exact fun s hs _ => hs
  | cons fr rest ih =>
    intro s hs hfr
    have hstep := durInv_step cfg hdur a b hwin s hs fr.1 fr.2
      (hfr fr (List.mem_cons_self fr rest))
    show DurInv a (runDetector cfg (stepFrame cfg s fr).1 rest)
    exact ih (stepFrame cfg s fr).1 hstep.2
      (fun g hg => hfr g (List.mem_cons_of_mem fr hg))

/-- C2: the DETECTING-to-PULLING transition occurs only when the time
elapsed since DETECTING began is at least required_duration; hence on any
frame sequence whose near-true frames all fall inside a window shorter
than required_duration (i.e. near is true for strictly less than
required_duration seconds), the machine never reaches PULLING — neither
after any processed prefix nor in the intermediate state between
_check_for_pulling and _trigger_alert of any frame. -/
theorem c2_duration_gate (cfg : DetConfig)
    (hdur : 0 < cfg.required_duration)
    (a b : ℚ) (hwin : b - a < cfg.required_duration)
    (frames : List (Bool × ℚ))
    (hnear : ∀ fr ∈ frames, fr.1 = true → a ≤ fr.2 ∧ fr.2 ≤ b) :
    (∀ (s : DetectorState) (near : Bool) (t : ℚ),
      (check_for_pulling cfg s near t).state = DState.pulling →
      s.state = DState.pulling ∨
        (near = true ∧
          cfg.required_duration ≤
            t - (check_for_pulling cfg s near t).hand_near_head_time)) ∧
    (∀ n : ℕ,
      (runDetector cfg initState (frames.take n)).state ≠ DState.pulling) ∧
    (∀ n : ℕ, n < frames.length →
      (check_for_pulling cfg (runDetector cfg initState (frames.take n))
          (frames.getD n (false, 0)).1
          (frames.getD n (false, 0)).2).state ≠ DState.pulling) := by
  have hinit : DurInv a initState := ⟨by simp [initState], by simp [initState]⟩
  have hrun : ∀ n : ℕ, DurInv a (runDetector cfg initState (frames.take n)) :=
    fun n => durInv_run cfg hdur a b hwin (frames.take n) initState hinit
      (fun fr hfr => hnear fr (List.take_subset n frames hfr))
  refine ⟨fun s near t h => check_to_pulling cfg s near t h,
    fun n => (hrun n).1, fun n hn => ?_⟩
  have hmem : frames.getD n (false, 0) ∈ frames := by
    rw [List.getD_eq_getElem frames (false, 0) hn]
    exact List.getElem_mem hn
  exact (durInv_step cfg hdur a b hwin _ (hrun n)
    (frames.getD n (false, 0)).1 (frames.getD n (false, 0)).2
    (hnear _ hmem)).1

/-- Witness for C2: with required_duration 1 and all near-true frames
inside the window [0, 1/2], the run never leaves DETECTING. -/
theorem c2_duration_gate_witness :
    (0:ℚ) < cfg0.required_duration ∧
    (runDetector cfg0 initState (frames2.take 3)).state = DState.detecting ∧
    (runDetector cfg0 initState (frames2.take 3)).state ≠ DState.pulling :=
  ⟨by norm_num [cfg0], by with_unfolding_all rfl,
   (c2_duration_gate cfg0 (by norm_num [cfg0]) 0 (1/2)
     (by norm_num [cfg0]) frames2
     (by
       intro fr hfr h
       simp only [frames2, List.mem_cons, List.not_mem_nil, or_false] at hfr
       rcases hfr with rfl | rfl | rfl <;> norm_num)).2.1 3⟩

/-- Counterexample for C7.  The claim says the `since` timestamp
(hand_near_head_time, the time DETECTING began) is cleared whenever the
machine returns to IDLE.  It is not: after the grace-window expiry at
t = 10.2 the machine is back in IDLE but hand_near_head_time still holds
10 (its value from the DETECTING episode; the cleared value set by
__init__ is 0), and after the post-trigger return to IDLE at t = 11
neither hand_near_head_time (still 10) nor even hand_near_head_duration
(still 1) is cleared. -/
theorem c7_counterexample :
    ((runDetector cfg0 initState framesC7a).state = DState.idle ∧
      (runDetector cfg0 initState framesC7a).hand_near_head_time = 10 ∧
      (runDetector cfg0 initState framesC7a).hand_near_head_time ≠
        initState.hand_near_head_time) ∧
    ((runDetector cfg0 initState framesC7b).state = DState.idle ∧
      (runDetector cfg0 initState framesC7b).hand_near_head_time = 10 ∧
      (runDetector cfg0 initState framesC7b).hand_near_head_duration = 1) := by
  refine ⟨⟨?_, ?_, ?_⟩, ?_, ?_, ?_⟩ <;> with_unfolding_all decide

/-- C7 amended: hand_near_head_time is assigned only on the
IDLE-to-DETECTING transition (where it becomes the current frame time and
the new state is no longer IDLE); on the grace-window return to IDLE only
hand_near_head_duration is cleared while hand_near_head_time keeps its
stale value, and _trigger_alert (including the post-trigger return to
IDLE) changes neither field.  The stale value is harmless because it is
overwritten whenever DETECTING next begins. -/
theorem c7_since_amended (cfg : DetConfig) (s : DetectorState) (near : Bool)
    (t : ℚ) :
    ((check_for_pulling cfg s near t).hand_near_head_time ≠
        s.hand_near_head_time →
      s.state = DState.idle ∧ near = true ∧
      (check_for_pulling cfg s near t).hand_near_head_time = t ∧
      (check_for_pulling cfg s near t).state ≠ DState.idle) ∧
    (near = false → t - s.last_hand_near_head > 1/10 →
      (check_for_pulling cfg s near t).state = DState.idle ∧
      (check_for_pulling cfg s near t).hand_near_head_duration = 0 ∧
      (check_for_pulling cfg s near t).hand_near_head_time =
        s.hand_near_head_time) ∧
    ((trigger_alert cfg s t).1.hand_near_head_time = s.hand_near_head_time ∧
      (trigger_alert cfg s t).1.hand_near_head_duration =
        s.hand_near_head_duration) := by
  refine ⟨?_, ?_, ?_⟩
  · intro hne
    unfold check_for_pulling at hne ⊢
    dsimp only at hne ⊢
    split_ifs at hne ⊢ with h1 h2 h3 h4 h5 <;>
      first
        | exact absurd rfl hne
        | exact ⟨h2, h1, rfl, by simp⟩
  · intro hfalse hgrace
    unfold check_for_pulling
    rw [if_neg (by simp [hfalse]), if_pos hgrace]
    exact ⟨rfl, rfl, rfl⟩
  · unfold trigger_alert
    split_ifs <;> exact ⟨rfl, rfl⟩

/-- Witness for the amended C7: from the initial state, a near-false
frame at t = 1 is past the grace window, so the machine is put in IDLE
with the duration cleared and the since timestamp untouched. -/
theorem c7_since_amended_witness :
    (check_for_pulling cfg0 initState false 1).state = DState.idle ∧
    (check_for_pulling cfg0 initState false 1).hand_near_head_duration = 0 ∧
    (check_for_pulling cfg0 initState false 1).hand_near_head_time =
      initState.hand_near_head_time :=
  (c7_since_amended cfg0 initState false 1).2.1 rfl
    (by norm_num [initState])

/-- Witness for C1 at the concrete configuration cfg0
(required_duration 1, trigger_cooldown 3) on a trace firing at times 11
and 21: the firing times are more than the cooldown apart. -/
theorem c1_cooldown_window_witness :
    firingTimes cfg0 initState frames0 = [11, 21] ∧
    List.Pairwise (fun t₁ t₂ => t₂ - t₁ > cfg0.trigger_cooldown)
      (firingTimes cfg0 initState frames0) :=
  ⟨by with_unfolding_all rfl,
   (c1_cooldown_window cfg0 (by norm_num [cfg0]) frames0).2⟩

theorem play_tts_message_reuse (hashFn : String → String)
    (del : String → Bool) (limit : ℚ) (cacheFolder : String)
    (fs : List CacheFile) (m : String) (now size : ℚ)
    (hex : (fs.any fun f =>
      f.path = get_cached_audio_path hashFn cacheFolder m) = true) :
    play_tts_message hashFn del limit cacheFolder fs m now size =
      (fs, false, []) := by
  unfold play_tts_message
  dsimp only
  rw [if_pos hex]

theorem play_tts_message_synth (hashFn : String → String)
    (del : String → Bool) (limit : ℚ) (cacheFolder : String)
    (fs : List CacheFile) (m : String) (now size : ℚ)
    (hex : (fs.any fun f =>
      f.path = get_cached_audio_path hashFn cacheFolder m) = false) :
    play_tts_message hashFn del limit cacheFolder fs m now size =
      ((enforce_cache_limit del limit
        (fs ++ [⟨get_cached_audio_path hashFn cacheFolder m, size, now⟩])).1,
       true,
       (enforce_cache_limit del limit
        (fs ++ [⟨get_cached_audio_path hashFn cacheFolder m, size, now⟩])).2) := by
  unfold play_tts_message
  dsimp only
  rw [if_neg (by simp [hex])]

/-- C4: resolving the audio path is content-addressed and idempotent.
The path is a function of the message text alone (calls with identical
text use the same cache path); _play_tts_message synthesizes exactly when
no file exists at that path; after a first call (whose fresh file is the
newest in the directory, fits within the limit, and whose evictions all
succeed) the file is present, and a second call with the same text
performs no synthesis and leaves the directory unchanged. -/
theorem c4_resolve_idempotent (hashFn : String → String)
    (cacheFolder : String) (limit : ℚ) (fs : List CacheFile) (m : String)
    (now size now₂ size₂ : ℚ)
    (hlim : size ≤ limit)
    (hmt : ∀ f ∈ fs, f.mtime < now) :
    (∀ m' : String, m' = m →
      get_cached_audio_path hashFn cacheFolder m' =
        get_cached_audio_path hashFn cacheFolder m) ∧
    ((play_tts_message hashFn (fun _ => true) limit cacheFolder fs m
        now size).2.1 =
      !(fs.any fun f =>
          f.path = get_cached_audio_path hashFn cacheFolder m)) ∧
    (∃ f ∈ (play_tts_message hashFn (fun _ => true) limit cacheFolder fs m
        now size).1,
      f.path = get_cached_audio_path hashFn cacheFolder m) ∧
    (play_tts_message hashFn (fun _ => true) limit cacheFolder
        (play_tts_message hashFn (fun _ => true) limit cacheFolder fs m
          now size).1 m now₂ size₂ =
      ((play_tts_message hashFn (fun _ => true) limit cacheFolder fs m
          now size).1, false, [])) := by
  refine ⟨fun m' hm' => by rw [hm'], ?_⟩
  by_cases hex : (fs.any fun f =>
      f.path = get_cached_audio_path hashFn cacheFolder m) = true
  · have h1 := play_tts_message_reuse hashFn (fun _ => true) limit
      cacheFolder fs m now size hex
    obtain ⟨f, hf, hfp⟩ := List.any_eq_true.mp hex
    refine ⟨by rw [h1, hex]; rfl,
      ⟨f, by rw [h1]; exact hf, of_decide_eq_true hfp⟩, ?_⟩
    rw [h1]
    exact play_tts_message_reuse hashFn (fun _ => true) limit cacheFolder
      fs m now₂ size₂ hex
  · have hex' : (fs.any fun f =>
        f.path = get_cached_audio_path hashFn cacheFolder m) = false := by
      simpa using hex
    have h1 := play_tts_message_synth hashFn (fun _ => true) limit
      cacheFolder fs m now size hex'
    have hkeep : (⟨get_cached_audio_path hashFn cacheFolder m, size, now⟩ :
        CacheFile) ∈
        (enforce_cache_limit (fun _ => true) limit
          (fs ++ [⟨get_cached_audio_path hashFn cacheFolder m, size, now⟩])).1 :=
      enforce_keeps_new limit fs _ hlim hmt
    have hmem : ∃ f ∈ (play_tts_message hashFn (fun _ => true) limit
        cacheFolder fs m now size).1,
        f.path = get_cached_audio_path hashFn cacheFolder m := by
      rw [h1]
      exact ⟨_, hkeep, rfl⟩
    refine ⟨by rw [h1, hex']; rfl, hmem, ?_⟩
    obtain ⟨f, hf, hfp⟩ := hmem
    have hany : ((play_tts_message hashFn (fun _ => true) limit cacheFolder
        fs m now size).1.any fun f =>
          f.path = get_cached_audio_path hashFn cacheFolder m) = true :=
      List.any_eq_true.mpr ⟨f, hf, decide_eq_true hfp⟩
    exact play_tts_message_reuse hashFn (fun _ => true) limit cacheFolder
      _ m now₂ size₂ hany

/-- Witness for C4: a first call on an empty cache writes the file
c/tts_hi.mp3 and a second call with the same text reuses it without
synthesis and without touching the directory. -/
theorem c4_resolve_idempotent_witness :
    (play_tts_message (fun s => s) (fun _ => true) 50 "c" [] "hi" 1 2).1 =
      [⟨"c/tts_hi.mp3", 2, 1⟩] ∧
    play_tts_message (fun s => s) (fun _ => true) 50 "c"
        (play_tts_message (fun s => s) (fun _ => true) 50 "c" [] "hi" 1 2).1
        "hi" 2 2 =
      ((play_tts_message (fun s => s) (fun _ => true) 50 "c" [] "hi" 1 2).1,
        false, []) :=
  ⟨by with_unfolding_all rfl,
   (c4_resolve_idempotent (fun s => s) "c" 50 [] "hi" 1 2 2 2
     (by norm_num) (by simp)).2.2.2⟩

/-- C5: after any insertion of a newly synthesized audio file (the
branch of _play_tts_message that writes a file runs _enforce_cache_limit
immediately afterwards), the total size of the cache directory is at
most the configured limit, or some eviction attempt failed and was
logged — the cache is never silently over the limit. -/
theorem c5_cache_bounded (hashFn : String → String) (del : String → Bool)
    (limit : ℚ) (cacheFolder : String) (fs : List CacheFile) (m : String)
    (now size : ℚ) (h0 : 0 ≤ limit)
    (hsynth : (play_tts_message hashFn del limit cacheFolder fs m
        now size).2.1 = true) :
    totalSize (play_tts_message hashFn del limit cacheFolder fs m
        now size).1 ≤ limit ∨
      ∃ p, CacheEvent.evictFailed p ∈
        (play_tts_message hashFn del limit cacheFolder fs m now size).2.2 := by
  unfold play_tts_message at hsynth ⊢
  dsimp only at hsynth ⊢
  split_ifs at hsynth ⊢ with hex
  exact enforce_cache_limit_bounded del limit h0 _

/-- Witness for C5: synthesizing a 5 MB file into a cache with a 1 MB
limit while the file is locked (every deletion attempt fails) leaves the
cache over the limit but with the failed eviction logged. -/
theorem c5_cache_bounded_witness :
    (0:ℚ) ≤ 1 ∧
    (play_tts_message (fun _ => "h") (fun _ => false) 1 "c" [] "hello"
      1 5).2.1 = true ∧
    (totalSize (play_tts_message (fun _ => "h") (fun _ => false) 1 "c" []
        "hello" 1 5).1 ≤ 1 ∨
      ∃ p, CacheEvent.evictFailed p ∈
        (play_tts_message (fun _ => "h") (fun _ => false) 1 "c" [] "hello"
          1 5).2.2) :=
  ⟨by norm_num, by with_unfolding_all rfl,
   c5_cache_bounded (fun _ => "h") (fun _ => false) 1 "c" [] "hello" 1 5
     (by norm_num) (by with_unfolding_all rfl)⟩

/-- C6: whenever the cache exceeds its limit, eviction deletes files
strictly in oldest-mtime-first order: the result of enforcement is a
suffix of the mtime-sorted directory (a permutation of the directory,
sorted oldest first), deletion stops at the first point where the size
is within the limit, and every shorter deletion prefix would still be
over the limit.  In the concrete scenario with limit 10 MB and ten 2 MB
files inserted in mtime order, exactly the five oldest are evicted, the
five most recent remain, and the remaining total is 10 MB. -/
theorem c6_eviction_lru :
    (∀ (limit : ℚ) (fs : List CacheFile), 0 ≤ limit →
      limit < totalSize fs →
      List.Pairwise (fun a b : CacheFile => a.mtime ≤ b.mtime)
        (sortByMtime fs) ∧
      List.Perm (sortByMtime fs) fs ∧
      ∃ k, (enforce_cache_limit (fun _ => true) limit fs).1 =
          (sortByMtime fs).drop k ∧
        (enforce_cache_limit (fun _ => true) limit fs).2 =
          ((sortByMtime fs).take k).map
            (fun f => CacheEvent.evicted f.path) ∧
        totalSize ((sortByMtime fs).drop k) ≤ limit ∧
        ∀ j, j < k → limit < totalSize ((sortByMtime fs).drop j)) ∧
    ((enforce_cache_limit (fun _ => true) 10 tenFiles).1 =
        tenFiles.drop 5 ∧
      (enforce_cache_limit (fun _ => true) 10 tenFiles).2 =
        (tenFiles.take 5).map (fun f => CacheEvent.evicted f.path) ∧
      totalSize (tenFiles.drop 5) = 10) := by
  constructor
  · intro limit fs h0 hover
    refine ⟨sortByMtime_pairwise fs, sortByMtime_perm fs, ?_⟩
    obtain ⟨k, heq, hle, hgt⟩ := evictLoop_allTrue_drop limit h0
      (sortByMtime fs) (totalSize fs) (totalSize_sortByMtime fs).symm
    refine ⟨k, ?_, ?_, hle, hgt⟩
    · unfold enforce_cache_limit
      rw [if_neg (not_le.mpr hover), heq]
    · unfold enforce_cache_limit
      rw [if_neg (not_le.mpr hover), heq]
  · refine ⟨?_, ?_, ?_⟩ <;> with_unfolding_all rfl

/-- Witness for C6: the general eviction order statement applied to the
concrete ten-file scenario. -/
theorem c6_eviction_lru_witness :
    (0:ℚ) ≤ 10 ∧ (10:ℚ) < totalSize tenFiles ∧
    ∃ k, (enforce_cache_limit (fun _ => true) 10 tenFiles).1 =
        (sortByMtime tenFiles).drop k ∧
      (enforce_cache_limit (fun _ => true) 10 tenFiles).2 =
        ((sortByMtime tenFiles).take k).map
          (fun f => CacheEvent.evicted f.path) ∧
      totalSize ((sortByMtime tenFiles).drop k) ≤ 10 ∧
      ∀ j, j < k → (10:ℚ) < totalSize ((sortByMtime tenFiles).drop j) :=
  ⟨by norm_num, by with_unfolding_all decide,
   ((c6_eviction_lru.1 10 tenFiles (by norm_num)
     (by with_unfolding_all decide)).2.2)⟩

theorem deleteRetryAux_spec (env : ℕ → RemoveOutcome) (delay : ℚ)
    (h0 : 0 ≤ delay) :
    ∀ (r start : ℕ),
      (deleteRetryAux env delay r start).2.1 ≤ r ∧
      (deleteRetryAux env delay r start).2.2 ≤ r * delay ∧
      ((∀ i, i < r → env (start + i) = RemoveOutcome.busy) →
        (deleteRetryAux env delay r start).1 = false ∧
        (deleteRetryAux env delay r start).2.1 = r) ∧
      ((deleteRetryAux env delay r start).1 = true ↔
        ∃ i, i < r ∧
          (env (start + i) = RemoveOutcome.notFound ∨
            env (start + i) = RemoveOutcome.removed) ∧
          ∀ j, j < i → env (start + j) = RemoveOutcome.busy) := by
  intro r
  induction r with
  | zero =>
    intro start
    refine ⟨le_refl 0, by simp [deleteRetryAux], fun _ => ⟨rfl, rfl⟩, ?_⟩
    simp [deleteRetryAux]
  | succ r ih =>
    intro start
    rcases henv : env start with _ | _ | _ | _
    · -- notFound: immediate success after one attempt
      have hred : deleteRetryAux env delay (r + 1) start = (true, 1, 0) := by
        simp [deleteRetryAux, henv]
      rw [hred]
      dsimp only
      refine ⟨by omega, mul_nonneg (by positivity) h0, fun hb => ?_, ?_⟩
      · have h00 := hb 0 (Nat.succ_pos r)
        rw [Nat.add_zero, henv] at h00
        exact absurd h00 (by simp)
      · constructor
        · intro _
          exact ⟨0, Nat.succ_pos r, Or.inl (by rwa [Nat.add_zero]),
            fun j hj => absurd hj (Nat.not_lt_zero j)⟩
        · intro _
          rfl
    · -- removed: immediate success after one attempt
      have hred : deleteRetryAux env delay (r + 1) start = (true, 1, 0) := by
        simp [deleteRetryAux, henv]
      rw [hred]
      dsimp only
      refine ⟨by omega, mul_nonneg (by positivity) h0, fun hb => ?_, ?_⟩
      · have h00 := hb 0 (Nat.succ_pos r)
        rw [Nat.add_zero, henv] at h00
        exact absurd h00 (by simp)
      · constructor
        · intro _
          exact ⟨0, Nat.succ_pos r, Or.inr (by rwa [Nat.add_zero]),
            fun j hj => absurd hj (Nat.not_lt_zero j)⟩
        · intro _
          rfl
    · -- busy: sleep and retry
      have hred : deleteRetryAux env delay (r + 1) start =
          ((deleteRetryAux env delay r (start + 1)).1,
           (deleteRetryAux env delay r (start + 1)).2.1 + 1,
           (deleteRetryAux env delay r (start + 1)).2.2 + delay) := by
        simp [deleteRetryAux, henv]
      obtain ⟨ih1, ih2, ih3, ih4⟩ := ih (start + 1)
      rw [hred]
      dsimp only
      refine ⟨by omega, ?_, fun hb => ?_, ?_⟩
      · have hr : ((r : ℚ) + 1) * delay = (r : ℚ) * delay + delay := by ring
        push_cast
        rw [hr]
        linarith
      · have hb' : ∀ i, i < r → env (start + 1 + i) = RemoveOutcome.busy := by
          intro i hi
          have := hb (i + 1) (by omega)
          rwa [show start + (i + 1) = start + 1 + i by omega] at this
        obtain ⟨hfa, hcnt⟩ := ih3 hb'
        exact ⟨hfa, by omega⟩
      · rw [ih4]
        constructor
        · rintro ⟨i, hi, hc, hbz⟩
          refine ⟨i + 1, by omega,
            by rwa [show start + (i + 1) = start + 1 + i by omega], ?_⟩
          intro j hj
          cases j with
          | zero => rwa [Nat.add_zero]
          | succ j' =>
            rw [show start + (j' + 1) = start + 1 + j' by omega]
            exact hbz j' (by omega)
        · rintro ⟨i, hi, hc, hbz⟩
          cases i with
          | zero =>
            rw [Nat.add_zero, henv] at hc
            rcases hc with hc | hc <;> exact absurd hc (by simp)
          | succ i' =>
            refine ⟨i', by omega,
              by rwa [show start + (i' + 1) = start + 1 + i' by omega] at hc,
              ?_⟩
            intro j hj
            have := hbz (j + 1) (by omega)
            rwa [show start + (j + 1) = start + 1 + j by omega] at this
    · -- any other OSError: caught, return false after one attempt
      have hred : deleteRetryAux env delay (r + 1) start = (false, 1, 0) := by
        simp [deleteRetryAux, henv]
      rw [hred]
      dsimp only
      refine ⟨by omega, mul_nonneg (by positivity) h0, fun hb => ?_, ?_⟩
      · have h00 := hb 0 (Nat.succ_pos r)
        rw [Nat.add_zero, henv] at h00
        exact absurd h00 (by simp)
      · constructor
        · intro hfalse
          exact absurd hfalse (by simp)
        · rintro ⟨i, hi, hc, hbz⟩
          cases i with
          | zero =>
            rw [Nat.add_zero, henv] at hc
            rcases hc with hc | hc <;> exact absurd hc (by simp)
          | succ i' =>
            have := hbz 0 (Nat.succ_pos i')
            rw [Nat.add_zero, henv] at this
            exact absurd this (by simp)

/-- C9: _delete_temp_file_with_retry with its default parameters
(5 retries, 0.5 s delay) makes at most 5 removal attempts, sleeps at
most 5 * 0.5 s, never propagates an OS error (the embedding is a total
function into Bool: an OSError other than winerror 32 yields the return
value false), returns false after 5 attempts on a persistently locked
(busy) file — leaving the file in place — and returns true exactly when
some attempt within the first 5 finds the file gone or removes it after
only busy attempts. -/
theorem c9_delete_retry (env : ℕ → RemoveOutcome) :
    (delete_temp_file_with_retry env 5 (1/2)).2.1 ≤ 5 ∧
    (delete_temp_file_with_retry env 5 (1/2)).2.2 ≤ 5 * (1/2) ∧
    ((∀ i, i < 5 → env i = RemoveOutcome.busy) →
      (delete_temp_file_with_retry env 5 (1/2)).1 = false ∧
      (delete_temp_file_with_retry env 5 (1/2)).2.1 = 5) ∧
    ((delete_temp_file_with_retry env 5 (1/2)).1 = true ↔
      ∃ i, i < 5 ∧
        (env i = RemoveOutcome.notFound ∨ env i = RemoveOutcome.removed) ∧
        ∀ j, j < i → env j = RemoveOutcome.busy) := by
  have spec := deleteRetryAux_spec env (1/2) (by norm_num) 5 0
  simpa [delete_temp_file_with_retry] using spec

/-- Witness for C9: an oracle that is busy twice then succeeds gives a
successful deletion after 3 attempts and 1 s of sleeping, within the
attempt bound. -/
theorem c9_delete_retry_witness :
    delete_temp_file_with_retry envC9 5 (1/2) = (true, 3, 1) ∧
    (delete_temp_file_with_retry envC9 5 (1/2)).2.1 ≤ 5 :=
  ⟨by with_unfolding_all rfl, (c9_delete_retry envC9).1⟩

theorem list_any_ext {α : Type} (l : List α) (p q : α → Bool)
    (h : ∀ a ∈ l, p a = q a) : l.any p = l.any q := by
  induction l with
  | nil => rfl
  | cons a as ih =>
    simp only [List.any_cons]
    rw [h a (List.mem_cons_self a as),
      ih fun b hb => h b (List.mem_cons_of_mem a hb)]

theorem hand_near_head_decomp (cfg : DetConfig)
    (hands : List (List Landmark)) (face : List Landmark)
    (rest : List (List Landmark)) (w h : ℚ) :
    hand_near_head cfg hands (face :: rest) w h =
      hands.any fun hand =>
        (cfg.full_head_detection &&
          handContact hand (facePtsEven face w h) w h) ||
        handAboveEye cfg.max_head_distance
          (aboveEyeLandmarks hand w h (eye_level_pixels face h))
          (facePtsEvenAboveEye face w h (eye_level_pixels face h)) := by
  cases hands with
  | nil => rfl
  | cons h1 hs =>
    have hl : hand_near_head cfg (h1 :: hs) (face :: rest) w h =
        (h1 :: hs).any fun hand =>
          if cfg.full_head_detection then
            handContact hand (facePtsEven face w h) w h ||
              handAboveEye cfg.max_head_distance
                (aboveEyeLandmarks hand w h (eye_level_pixels face h))
                (facePtsEvenAboveEye face w h (eye_level_pixels face h))
          else
            handAboveEye cfg.max_head_distance
              (aboveEyeLandmarks hand w h (eye_level_pixels face h))
              (facePtsEvenAboveEye face w h (eye_level_pixels face h)) := rfl
    rw [hl]
    refine list_any_ext _ _ _ fun hand _ => ?_
    cases hfl : cfg.full_head_detection <;> simp [hfl]

/-- C8: in full-head mode the proximity result decomposes into the
contact check plus the above-eye check, and in baseline mode it is the
above-eye check alone; the contact check takes no configurable threshold
at all (it is independent of max_head_distance) and holds exactly when
some landmark of some hand is at squared 3D pixel distance strictly
below 20^2 from some even-index face landmark, while the configurable
max_head_distance appears only inside handAboveEye. -/
theorem c8_contact_radius_independent (d rd tc : ℚ)
    (hands : List (List Landmark)) (face : List Landmark)
    (rest : List (List Landmark)) (w h : ℚ) :
    (hand_near_head ⟨true, d, rd, tc⟩ hands (face :: rest) w h = true ↔
      (∃ hd ∈ hands,
        handContact hd (facePtsEven face w h) w h = true) ∨
      (∃ hd ∈ hands,
        handAboveEye d (aboveEyeLandmarks hd w h (eye_level_pixels face h))
          (facePtsEvenAboveEye face w h (eye_level_pixels face h)) =
          true)) ∧
    (hand_near_head ⟨false, d, rd, tc⟩ hands (face :: rest) w h = true ↔
      ∃ hd ∈ hands,
        handAboveEye d (aboveEyeLandmarks hd w h (eye_level_pixels face h))
          (facePtsEvenAboveEye face w h (eye_level_pixels face h)) =
          true) ∧
    (∀ (hand : List Landmark) (facePts : List (ℚ × ℚ × ℚ)),
      handContact hand facePts w h = true ↔
        ∃ lm ∈ hand, ∃ fp ∈ facePts,
          distSq (scaleLm w h lm) fp < 20 ^ 2) ∧
    (∀ fp, fp ∈ facePtsEven face w h ↔
      ∃ i, i < face.length ∧ i % 2 = 0 ∧
        scaleLm w h (face.getD i ⟨0, 0, 0⟩) = fp) := by
  refine ⟨?_, ?_, ?_, ?_⟩
  · rw [hand_near_head_decomp]
    simp [List.any_eq_true, and_or_left, exists_or]
  · rw [hand_near_head_decomp]
    simp [List.any_eq_true]
  · intro hand facePts
    simp [handContact, List.any_eq_true, distLt,
      show (0:ℚ) ≤ 20 from by norm_num]
  · intro fp
    simp only [facePtsEven, List.mem_filterMap, List.mem_range,
      Option.ite_none_right_eq_some, Option.some.injEq]

/-- C10: the above-eye branch requires at least 3 hand landmarks of a
single hand above the eye-level line (pixel y at most
int((min(right_eye.y, left_eye.y) - 0.05) * frame_height)); with fewer
than 3 such landmarks on every hand, baseline mode yields near = false
regardless of how close the hand is to the head, and full-head mode
falls back to the fixed-radius contact check alone. -/
theorem c10_min_three_landmarks (d rd tc : ℚ)
    (hands : List (List Landmark)) (face : List Landmark)
    (rest : List (List Landmark)) (w h : ℚ)
    (hcount : ∀ hd ∈ hands,
      (aboveEyeLandmarks hd w h (eye_level_pixels face h)).length < 3) :
    hand_near_head ⟨false, d, rd, tc⟩ hands (face :: rest) w h = false ∧
    hand_near_head ⟨true, d, rd, tc⟩ hands (face :: rest) w h =
      hands.any fun hd => handContact hd (facePtsEven face w h) w h := by
  have habove : ∀ hd ∈ hands,
      handAboveEye d (aboveEyeLandmarks hd w h (eye_level_pixels face h))
        (facePtsEvenAboveEye face w h (eye_level_pixels face h)) =
        false := by
    intro hd hhd
    unfold handAboveEye
    rw [decide_eq_false (not_le.mpr (hcount hd hhd))]
    rfl
  constructor
  · rw [hand_near_head_decomp]
    rw [List.any_eq_false]
    intro hd hhd
    simp [habove hd hhd]
  · rw [hand_near_head_decomp]
    refine list_any_ext _ _ _ fun hd hhd => ?_
    simp [habove hd hhd]

set_option maxRecDepth 100000 in
/-- Witness for C10: a single hand landmark placed exactly at the
forehead landmark position (3D distance 0) still yields near = false,
because only one hand landmark is above eye level. -/
theorem c10_min_three_landmarks_witness :
    distSq (scaleLm 640 480 ⟨1/2, 3/25, 0⟩)
      (scaleLm 640 480 ⟨1/2, 3/25, 0⟩) = 0 ∧
    hand_near_head ⟨false, 50, 3/4, 3⟩ [[⟨1/2, 3/25, 0⟩]] [faceC3]
      640 480 = false :=
  ⟨by with_unfolding_all rfl,
   (c10_min_three_landmarks 50 (3/4) 3 [[⟨1/2, 3/25, 0⟩]] faceC3 [] 640 480
     (by
       intro hd hhd
       rw [List.mem_singleton] at hhd
       subst hhd
       with_unfolding_all decide)).1⟩

set_option maxRecDepth 100000 in
/-- Counterexample for C3.  The claim asserts that a hand landmark at
normalized (0.5, 0.1, 0) with the face forehead landmark (index 10) at
(0.5, 0.12, 0), frame 640x480, full_head_detection false and
max_head_distance 50 yields near = true.  On the code it yields
near = false: the above-eye branch requires at least 3 hand landmarks
above eye level before any distance is compared, and this hand provides
only one (faceC3 places the eyes at y = 0.3 so the hand landmark and the
forehead are both above eye level, and the 3D pixel distance is 9.6,
well below 50 — yet the result is false). -/
theorem c3_concrete_counterexample :
    hand_near_head ⟨false, 50, 3/4, 3⟩ [[⟨1/2, 1/10, 0⟩]] [faceC3]
      640 480 = false := by
  with_unfolding_all rfl

set_option maxRecDepth 100000 in
/-- C3 amended: with a hand contributing at least 3 landmarks above eye
level at normalized (0.5, 0.1, 0) (the minimum the code requires before
comparing distances) and the face forehead landmark at (0.5, 0.12, 0) in
a 640x480 frame with max_head_distance 50 and full_head_detection
false, the proximity evaluation returns near = true, and the 3D pixel
distance between the hand point and the forehead point is exactly
9.6 = 48/5 pixels, below the 50 pixel threshold. -/
theorem c3_concrete_scenario_amended :
    hand_near_head ⟨false, 50, 3/4, 3⟩
      [[⟨1/2, 1/10, 0⟩, ⟨1/2, 1/10, 0⟩, ⟨1/2, 1/10, 0⟩]] [faceC3]
      640 480 = true ∧
    distSq (scaleLm 640 480 ⟨1/2, 1/10, 0⟩)
      (scaleLm 640 480 ⟨1/2, 3/25, 0⟩) = (48/5) ^ 2 ∧
    (48/5 : ℚ) < 50 :=
  ⟨by with_unfolding_all rfl, by with_unfolding_all rfl, by norm_num⟩
